import Mathlib

/-!
Verification development for the pyrpl `memory.py` configuration store
(`MemoryBranch` / `MemoryTree`).

The Python source is shallowly embedded:
* Python ordered dicts (`OrderedDict` / YAML `CommentedMap`) become ordered
  association lists `List (String × Val)`; assignment to an existing key keeps
  its position, assignment to a new key appends at the end, exactly like a
  Python dict.
* Values are the tagged union `Val` (scalar leaf or nested mapping), matching
  the `isbranch` test of the source.
* Stateful methods become explicit state-passing functions; Python exceptions
  become `Except` / `Option` results.
* Where object identity and in-place mutation matter (shared references,
  the class-level `_data` default), an explicit heap of addressed dicts is
  used.
-/

namespace PyrplMemory

/-- A YAML-style value: a scalar leaf or a nested ordered mapping.
This is the data model of the branch contents (`isbranch` distinguishes
the two cases in the source). -/
inductive Val where
  | leaf : Int → Val
  | node : List (String × Val) → Val

/-- Python `d[k]` read on an ordered dict: first (only) binding of `k`. -/
def lookupKey : List (String × Val) → String → Option Val
  | [], _ => none
  | (a, w) :: rest, k => if a = k then some w else lookupKey rest k

/-- Python `d[k] = v` on an ordered dict: update in place if the key exists,
append at the end otherwise. -/
def setKey : List (String × Val) → String → Val → List (String × Val)
  | [], k, v => [(k, v)]
  | (a, w) :: rest, k, v =>
      if a = k then (a, v) :: rest else (a, w) :: setKey rest k v

/-- Python `d.pop(k)` removal part: drop the binding of `k`. -/
def removeKey : List (String × Val) → String → List (String × Val)
  | [], _ => []
  | (a, w) :: rest, k => if a = k then rest else (a, w) :: removeKey rest k

theorem lookupKey_setKey_self (m : List (String × Val)) (k : String) (v : Val) :
    lookupKey (setKey m k v) k = some v := by
  induction m with
  | nil => simp [setKey, lookupKey]
  | cons hd tl ih =>
      obtain ⟨a, w⟩ := hd
      by_cases hak : a = k
      · simp [setKey, lookupKey, hak]
      · simp [setKey, lookupKey, hak, ih]

theorem lookupKey_setKey_ne (m : List (String × Val)) (k b : String) (v : Val)
    (hbk : b ≠ k) : lookupKey (setKey m k v) b = lookupKey m b := by
  induction m with
  | nil =>
      have hkb : ¬ k = b := fun h => hbk h.symm
      simp [setKey, lookupKey, hkb]
  | cons hd tl ih =>
      obtain ⟨a, w⟩ := hd
      by_cases hak : a = k
      · subst hak
        have hab : ¬ a = b := fun h => hbk h.symm
        simp [setKey, lookupKey, hab]
      · simp [setKey, lookupKey, hak, ih]

/-! ## Claim C3: defaults-chain lookup (`MemoryBranch.__getitem__`, lines 277-288)

`__getitem__` first looks the key up in the branch's own raw data
(`self._data`); on a `KeyError` it walks the `_defaults` list in order and
returns the first defaults branch whose *own* raw data (`defaultbranch._data`)
has the key; if none has it, the `KeyError` propagates (`raise`).
Here the own data of the branch and of each defaults branch are given
directly; a `KeyError` outcome is `none`. -/

/-- The `for defaultbranch in self._defaults` loop of `__getitem__`:
return the first defaults branch's own value for the key, else `none`. -/
def getitemDefaults : List (List (String × Val)) → String → Option Val
  | [], _ => none
  | d :: rest, k =>
      match lookupKey d k with
      | some v => some v
      | none => getitemDefaults rest k

/-- `MemoryBranch.__getitem__`: own data first, then the defaults chain in
order; `none` models the escaping `KeyError`. -/
def getitem (own : List (String × Val)) (defaults : List (List (String × Val)))
    (k : String) : Option Val :=
  match lookupKey own k with
  | some v => some v
  | none => getitemDefaults defaults k

/-- Claim C3: with defaults chain `[d1, d2]` (d1 higher priority), a read
returns the branch's own value when the key is in its own data; otherwise the
first defaults branch in order whose own data contains the key supplies the
value (d1 before d2); the read fails (`KeyError`) exactly when the key is in
none of the three. -/
theorem C3_defaults_precedence (own d1 d2 : List (String × Val)) (k : String) :
    (∀ v, lookupKey own k = some v → getitem own [d1, d2] k = some v)
    ∧ (lookupKey own k = none →
        ∀ v, lookupKey d1 k = some v → getitem own [d1, d2] k = some v)
    ∧ (lookupKey own k = none → lookupKey d1 k = none →
        ∀ v, lookupKey d2 k = some v → getitem own [d1, d2] k = some v)
    ∧ (lookupKey own k = none → lookupKey d1 k = none →
        lookupKey d2 k = none → getitem own [d1, d2] k = none) := by
  refine ⟨?_, ?_, ?_, ?_⟩
  · intro v hv
    simp [getitem, hv]
  · intro h0 v hv
    simp [getitem, getitemDefaults, h0, hv]
  · intro h0 h1 v hv
    simp [getitem, getitemDefaults, h0, h1, hv]
  · intro h0 h1 h2
    simp [getitem, getitemDefaults, h0, h1, h2]

/-- Witness for C3 at concrete data: own data lacks the key, both defaults
have it with different values, and the read returns d1's value. -/
theorem C3_defaults_precedence_witness :
    getitem [("a", Val.leaf 0)]
      [[("k", Val.leaf 1)], [("k", Val.leaf 2)]] "k" = some (Val.leaf 1) := by
  have h := C3_defaults_precedence [("a", Val.leaf 0)]
    [("k", Val.leaf 1)] [("k", Val.leaf 2)] "k"
  exact h.2.1 rfl (Val.leaf 1) rfl

/-! ## Claim C2: write-then-read and the defaults frame

A branch does not own data: `MemoryBranch._data` resolves
`self._parent._data[self._branch]` recursively, so a branch is the subtree of
the tree root reached by its path. A write through the branch
(`__setitem__`, lines 301-312; `__setattr__`, lines 290-296) mutates the
nested mapping at that path inside the root (aliasing in Python; `setAt`
here). A read (`__getitem__`) consults the branch's own subtree first, then
each defaults branch's own subtree in order. -/

/-- Follow a path of keys down from a value (`_data` resolution through the
parent chain); `none` when a key is missing or a leaf is hit early. -/
def subAt : Val → List String → Option Val
  | v, [] => some v
  | Val.node m, k :: p =>
      match lookupKey m k with
      | some w => subAt w p
      | none => none
  | Val.leaf _, _ :: _ => none

/-- Write `v` under key `k` in the mapping at path `p` inside `root`
(the in-place dict mutation performed by `__setitem__` / `__setattr__`,
seen from the root). If the path cannot be resolved the root is unchanged
(the Python call would have raised before mutating anything). -/
def setAt : Val → List String → String → Val → Val
  | Val.node m, [], k, v => Val.node (setKey m k v)
  | Val.node m, q :: p, k, v =>
      match lookupKey m q with
      | some w => Val.node (setKey m q (setAt w p k v))
      | none => Val.node m
  | w, _, _, _ => w

/-- `leadsInto p q` holds when path `p` is an initial segment of path `q`
(so the node at `p` contains the node at `q`). -/
def leadsInto : List String → List String → Bool
  | [], _ => true
  | _ :: _, [] => false
  | a :: p, b :: q => if a = b then leadsInto p q else false

/-- The defaults loop of `__getitem__` at tree level: first defaults branch
whose own subtree is a mapping containing `k` (a missing defaults branch
raises `KeyError`, which the loop swallows). -/
def branchReadDefaults (root : Val) : List (List String) → String → Option Val
  | [], _ => none
  | dp :: rest, k =>
      match subAt root dp with
      | some (Val.node dm) =>
          match lookupKey dm k with
          | some v => some v
          | none => branchReadDefaults root rest k
      | _ => branchReadDefaults root rest k

/-- `__getitem__` seen at tree level: the branch at path `p` reads key `k`
from its own subtree first, then from the own subtree of each defaults
branch (given by its path) in order. -/
def branchReadAt (root : Val) (p : List String)
    (defaultPaths : List (List String)) (k : String) : Option Val :=
  match subAt root p with
  | some (Val.node m) =>
      match lookupKey m k with
      | some v => some v
      | none => branchReadDefaults root defaultPaths k
  | _ => none

theorem subAt_setAt_self (p : List String) (root : Val) (m : List (String × Val))
    (k : String) (v : Val) (hb : subAt root p = some (Val.node m)) :
    subAt (setAt root p k v) p = some (Val.node (setKey m k v)) := by
  induction p generalizing root with
  | nil =>
      cases root with
      | leaf n => simp [subAt] at hb
      | node m0 =>
          simp [subAt] at hb
          subst hb
          simp [subAt, setAt]
  | cons q p ih =>
      cases root with
      | leaf n => simp [subAt] at hb
      | node m0 =>
          simp [subAt] at hb
          cases hq : lookupKey m0 q with
          | none => simp [hq] at hb
          | some w =>
              rw [hq] at hb
              simp [setAt, hq, subAt, lookupKey_setKey_self, ih w hb]

theorem subAt_setAt_frame (p : List String) (dp : List String) (root : Val)
    (k : String) (v : Val)
    (h1 : leadsInto dp (p ++ [k]) = false)
    (h2 : leadsInto (p ++ [k]) dp = false) :
    subAt (setAt root p k v) dp = subAt root dp := by
  induction p generalizing root dp with
  | nil =>
      cases dp with
      | nil => simp [leadsInto] at h1
      | cons d dq =>
          cases root with
          | leaf n => simp [setAt]
          | node m =>
              have hkd : ¬ k = d := by
                intro h
                rw [List.nil_append, leadsInto, if_pos h] at h2
                simp [leadsInto] at h2
              have hdk : ¬ d = k := fun h => hkd h.symm
              simp [setAt, subAt, lookupKey_setKey_ne m k d v hdk]
  | cons q p ih =>
      cases dp with
      | nil => simp [leadsInto] at h1
      | cons d dq =>
          cases root with
          | leaf n => simp [setAt]
          | node m =>
              by_cases hdq : d = q
              · subst hdq
                rw [List.cons_append, leadsInto, if_pos rfl] at h1
                rw [List.cons_append, leadsInto, if_pos rfl] at h2
                cases hq : lookupKey m d with
                | none => simp [setAt, hq]
                | some w =>
                    simp [setAt, hq, subAt, lookupKey_setKey_self, ih dq w h1 h2]
              · cases hq : lookupKey m q with
                | none => simp [setAt, hq]
                | some w =>
                    have hdq2 : ¬ d = q := hdq
                    simp [setAt, hq, subAt,
                          lookupKey_setKey_ne m q d (setAt w p k v) hdq2]

/-- Concrete tree used to refute C2 as stated: root is
a mapping with branch "a", whose own data holds a sub-mapping under "k". -/
def c2ExRoot : Val :=
  Val.node [("a", Val.node [("k", Val.node [("x", Val.leaf 1)])])]

/-- Counterexample to claim C2 as stated: the branch `b` at path ["a"] has the
defaults branch at path ["a", "k"] — a branch of the same tree located under
the written key. Writing the leaf 5 under "k" through `b` succeeds and is
read back, but the defaults branch's own Submapping is changed by the write
(it is no longer even a mapping), refuting "the own Submapping of every
defaults branch referenced by b is unchanged by the write". -/
theorem C2_defaults_alias_counterexample :
    branchReadAt (setAt c2ExRoot ["a"] "k" (Val.leaf 5)) ["a"] [["a", "k"]] "k"
      = some (Val.leaf 5)
    ∧ subAt (setAt c2ExRoot ["a"] "k" (Val.leaf 5)) ["a", "k"]
        ≠ subAt c2ExRoot ["a", "k"] := by
  constructor
  · rfl
  · intro h
    have h2 : some (Val.leaf 5)
        = some (Val.node [("x", Val.leaf 1)]) := h
    exact Val.noConfusion (Option.some.inj h2)

/-- Claim C2 amended: writing `v` under `k` through the branch at path `p`
and then reading `k` through it returns `v`; and the own Submapping of every
defaults branch whose path neither contains nor is contained in the written
entry's path `p ++ [k]` is unchanged by the write. -/
theorem C2_write_read_frame (root : Val) (p : List String)
    (m : List (String × Val)) (ds : List (List String)) (k : String) (v : Val)
    (hb : subAt root p = some (Val.node m)) :
    branchReadAt (setAt root p k v) p ds k = some v
    ∧ ∀ dp ∈ ds, leadsInto dp (p ++ [k]) = false →
        leadsInto (p ++ [k]) dp = false →
        subAt (setAt root p k v) dp = subAt root dp := by
  constructor
  · rw [branchReadAt, subAt_setAt_self p root m k v hb]
    simp [lookupKey_setKey_self]
  · intro dp _ h1 h2
    exact subAt_setAt_frame p dp root k v h1 h2

/-- Witness for the amended C2 at concrete data: branch at path ["a"] with a
defaults branch at the disjoint path ["b"]; writing under "k" is read back
and the defaults branch's own data is untouched. -/
theorem C2_write_read_frame_witness :
    branchReadAt
        (setAt (Val.node [("a", Val.node []), ("b", Val.node [("k", Val.leaf 7)])])
          ["a"] "k" (Val.leaf 5)) ["a"] [["b"]] "k" = some (Val.leaf 5)
    ∧ subAt
        (setAt (Val.node [("a", Val.node []), ("b", Val.node [("k", Val.leaf 7)])])
          ["a"] "k" (Val.leaf 5)) ["b"]
        = subAt (Val.node [("a", Val.node []), ("b", Val.node [("k", Val.leaf 7)])]) ["b"] := by
  have h := C2_write_read_frame
    (Val.node [("a", Val.node []), ("b", Val.node [("k", Val.leaf 7)])])
    ["a"] [] [["b"]] "k" (Val.leaf 5) rfl
  exact ⟨h.1, h.2 ["b"] (by simp) rfl rfl⟩

/-! ## Claim C5: number of `tree.save()` calls per mutating operation

Every `MemoryBranch._save` delegates to its parent's `_save` up to
`MemoryTree._save`, which unconditionally increments `_save_counter` once per
call (line 494). The operations below act on the raw data of the branch that
holds the affected entries (for `_rename` / `_erase`, the parent branch) and
count the `tree.save()` calls they trigger. -/

/-- State of a branch's raw mapping together with the tree's save-call
counter (`MemoryTree._save_counter`). -/
structure OpState where
  data : List (String × Val)
  saveCount : Nat

/-- `MemoryTree._save` seen only through its call counter (the disk side is
modelled separately): one call, one increment. -/
def opTreeSave (s : OpState) : OpState :=
  { s with saveCount := s.saveCount + 1 }

/-- `MemoryBranch.__setattr__` (non-underscore name, lines 290-296):
`self._data[name] = value; self._save()`. -/
def opSetattr (s : OpState) (k : String) (v : Val) : OpState :=
  opTreeSave { s with data := setKey s.data k v }

/-- `MemoryBranch.__setitem__` (lines 301-312): existing key → `__setattr__`;
new key → store (`dict(value)` for mappings — value-identical here) and one
`self._save()`. -/
def opSetitem (s : OpState) (k : String) (v : Val) : OpState :=
  match lookupKey s.data k with
  | some _ => opSetattr s k v
  | none => opTreeSave { s with data := setKey s.data k v }

/-- `MemoryBranch._update` (lines 248-256): `self._data.update(new_dict)`
then one `self._save()`. -/
def opUpdate (s : OpState) (nd : List (String × Val)) : OpState :=
  opTreeSave { s with data := nd.foldl (fun acc kv => setKey acc kv.1 kv.2) s.data }

/-- `MemoryBranch._pop` (lines 314-320): `self._data.pop(name)` (raising
`KeyError` when absent, before any save) then one `self._save()`. -/
def opPop (s : OpState) (k : String) : Except Unit (Val × OpState) :=
  match lookupKey s.data k with
  | none => Except.error ()
  | some v => Except.ok (v, opTreeSave { s with data := removeKey s.data k })

/-- `MemoryBranch._set_yml` (lines 377-384): replace the branch's entry in
the parent data with the parsed content, then one `self._save()`. -/
def opSetYml (s : OpState) (branchName : String) (parsed : Val) : OpState :=
  opTreeSave { s with data := setKey s.data branchName parsed }

/-- `MemoryBranch._rename` (lines 322-324):
`self._parent[name] = self._parent._pop(self._branch)` followed by
`self._save()` — the pop saves once, the parent `__setitem__` saves once,
and the final `_save` saves once. -/
def opRename (s : OpState) (old nw : String) : Except Unit OpState :=
  match opPop s old with
  | Except.error e => Except.error e
  | Except.ok (v, s1) => Except.ok (opTreeSave (opSetitem s1 nw v))

/-- `MemoryBranch._erase` (lines 326-332): `self._parent._pop(self._branch)`
(one save) followed by `self._save()` (another save). -/
def opErase (s : OpState) (k : String) : Except Unit OpState :=
  match opPop s k with
  | Except.error e => Except.error e
  | Except.ok (_, s1) => Except.ok (opTreeSave s1)

/-- Counterexample to claim C5 as stated: renaming the branch "old" of a
parent holding only that branch performs three `tree.save()` calls (pop,
parent insertion, final `_save`), not one — the save counter goes from 0
to 3. -/
theorem C5_rename_counterexample :
    opRename ⟨[("old", Val.node [])], 0⟩ "old" "new"
      = Except.ok ⟨[("new", Val.node [])], 3⟩
    ∧ (opRename ⟨[("old", Val.node [])], 0⟩ "old" "new").map OpState.saveCount
      ≠ Except.ok 1 := by
  constructor
  · rfl
  · intro h
    have h2 : (3 : Nat) = 1 := Except.ok.inj h
    exact absurd h2 (by decide)

/-- Claim C5 amended: write (`__setattr__`), create-or-overwrite
(`__setitem__`), bulk update (`_update`) and import (`_set_yml`) each perform
exactly one `tree.save()` call; remove (`_pop`) performs exactly one when the
key exists; rename performs exactly three; erase performs exactly two. -/
theorem C5_save_call_counts (s : OpState) (k old nw bn : String) (v pv : Val)
    (nd : List (String × Val)) :
    (opSetattr s k v).saveCount = s.saveCount + 1
    ∧ (opSetitem s k v).saveCount = s.saveCount + 1
    ∧ (opUpdate s nd).saveCount = s.saveCount + 1
    ∧ (opSetYml s bn pv).saveCount = s.saveCount + 1
    ∧ (∀ w s2, opPop s k = Except.ok (w, s2) → s2.saveCount = s.saveCount + 1)
    ∧ (∀ s2, opRename s old nw = Except.ok s2 → s2.saveCount = s.saveCount + 3)
    ∧ (∀ s2, opErase s k = Except.ok s2 → s2.saveCount = s.saveCount + 2) := by
  refine ⟨rfl, ?_, rfl, rfl, ?_, ?_, ?_⟩
  · unfold opSetitem
    cases lookupKey s.data k <;> rfl
  · intro w s2 h
    unfold opPop at h
    cases hk : lookupKey s.data k with
    | none => rw [hk] at h; exact Except.noConfusion h
    | some u =>
        rw [hk] at h
        have h2 := Except.ok.inj h
        have h3 : s2 = opTreeSave { s with data := removeKey s.data k } :=
          (congrArg Prod.snd h2).symm
        rw [h3]; rfl
  · intro s2 h
    unfold opRename at h
    cases hp : opPop s old with
    | error e => rw [hp] at h; exact Except.noConfusion h
    | ok p =>
        rw [hp] at h
        obtain ⟨w, s1⟩ := p
        have hs1 : s1.saveCount = s.saveCount + 1 := by
          unfold opPop at hp
          cases hk : lookupKey s.data old with
          | none => rw [hk] at hp; exact Except.noConfusion hp
          | some u =>
              rw [hk] at hp
              have h2 := Except.ok.inj hp
              have h3 : s1 = opTreeSave { s with data := removeKey s.data old } :=
                (congrArg Prod.snd h2).symm
              rw [h3]; rfl
        have h4 : s2 = opTreeSave (opSetitem s1 nw w) := (Except.ok.inj h).symm
        have h5 : (opSetitem s1 nw w).saveCount = s1.saveCount + 1 := by
          unfold opSetitem
          cases lookupKey s1.data nw <;> rfl
        rw [h4]
        show (opSetitem s1 nw w).saveCount + 1 = s.saveCount + 3
        rw [h5, hs1]
  · intro s2 h
    unfold opErase at h
    cases hp : opPop s k with
    | error e => rw [hp] at h; exact Except.noConfusion h
    | ok p =>
        rw [hp] at h
        obtain ⟨w, s1⟩ := p
        have hs1 : s1.saveCount = s.saveCount + 1 := by
          unfold opPop at hp
          cases hk : lookupKey s.data k with
          | none => rw [hk] at hp; exact Except.noConfusion hp
          | some u =>
              rw [hk] at hp
              have h2 := Except.ok.inj hp
              have h3 : s1 = opTreeSave { s with data := removeKey s.data k } :=
                (congrArg Prod.snd h2).symm
              rw [h3]; rfl
        have h4 : s2 = opTreeSave s1 := (Except.ok.inj h).symm
        rw [h4]
        show s1.saveCount + 1 = s.saveCount + 2
        rw [hs1]

/-- Witness for the amended C5 at concrete data: erasing the only branch of
a concrete parent performs exactly two save calls. -/
theorem C5_save_call_counts_witness :
    (⟨[], 2⟩ : OpState).saveCount = (⟨[("old", Val.leaf 1)], 0⟩ : OpState).saveCount + 2 := by
  have h := C5_save_call_counts ⟨[("old", Val.leaf 1)], 0⟩ "old" "o" "n" "b"
    (Val.leaf 0) (Val.leaf 0) []
  exact h.2.2.2.2.2.2 ⟨[], 2⟩ rfl

/-! ## Claim C4: `MemoryTree._load` on empty and malformed files

`_load` (lines 445-470) runs `self._data = load(f)` with no exception
handler: when the YAML backend raises a parse error it propagates to the
caller of `_load`. Only the *empty file* case (`load` returning `None`) is
recovered, by substituting an empty `OrderedDict`. The parse outcome of the
backend is passed in explicitly below. -/

/-- Outcome of the serialization backend's `load` on the file contents:
an empty file parses to `none`, a well-formed file to `some` data, and a
malformed file raises a parse error. -/
inductive ParseOutcome where
  | parsed : Option (List (String × Val)) → ParseOutcome
  | parseError : ParseOutcome

/-- The data-assignment logic of `MemoryTree._load`: propagate a backend
parse error (no handler in the source); turn an empty-file `None` into an
empty mapping; keep parsed data as is. -/
def treeLoad : ParseOutcome → Except Unit (List (String × Val))
  | ParseOutcome.parsed none => Except.ok []
  | ParseOutcome.parsed (some d) => Except.ok d
  | ParseOutcome.parseError => Except.error ()

/-- Counterexample to claim C4 as stated: on a malformed backing file the
load raises to the caller instead of recovering with an empty mapping. -/
theorem C4_parse_error_counterexample :
    treeLoad ParseOutcome.parseError = Except.error ()
    ∧ treeLoad ParseOutcome.parseError ≠ Except.ok [] := by
  exact ⟨rfl, fun h => Except.noConfusion h⟩

/-- Claim C4 amended: an empty backing file yields an empty Submapping as the
tree root; well-formed contents become the root unchanged; malformed contents
make `_load` raise the backend's parse error to the caller (there is no local
recovery for parse failures). -/
theorem C4_load_behaviour (d : List (String × Val)) :
    treeLoad (ParseOutcome.parsed none) = Except.ok []
    ∧ treeLoad (ParseOutcome.parsed (some d)) = Except.ok d
    ∧ treeLoad ParseOutcome.parseError = Except.error () :=
  ⟨rfl, rfl, rfl⟩

/-! ## Claim C1: atomic save under injected failure (`MemoryTree._save`, lines 493-527)

The disk phase of `_save` (entered once the deadtime gate passes) is:
`copyfile(filename, filename + ".bak")`, then inside a `try`: write the
serialized tree to `filename + ".tmp"` (flush/fsync), `os.unlink(filename)`,
`os.rename(tmp, filename)`; the bare `except` restores
`copyfile(filename + ".bak", filename)`, logs, and re-`raise`s.
The filesystem is a mapping from path to byte content; a failure is injected
at each of the three guarded steps (the failing step leaves the filesystem as
it was before that step). -/

/-- A filesystem: mapping from path to file contents (byte list). -/
def fsGet : List (String × List Nat) → String → Option (List Nat)
  | [], _ => none
  | (a, c) :: rest, pth => if a = pth then some c else fsGet rest pth

/-- Write (create or overwrite) a file. -/
def fsSet : List (String × List Nat) → String → List Nat → List (String × List Nat)
  | [], pth, c => [(pth, c)]
  | (a, b) :: rest, pth, c =>
      if a = pth then (a, c) :: rest else (a, b) :: fsSet rest pth c

/-- `os.unlink`: remove a file. -/
def fsDel : List (String × List Nat) → String → List (String × List Nat)
  | [], _ => []
  | (a, b) :: rest, pth => if a = pth then rest else (a, b) :: fsDel rest pth

theorem fsGet_fsSet_self (fs : List (String × List Nat)) (pth : String) (c : List Nat) :
    fsGet (fsSet fs pth c) pth = some c := by
  induction fs with
  | nil => simp [fsSet, fsGet]
  | cons hd tl ih =>
      obtain ⟨a, b⟩ := hd
      by_cases hap : a = pth
      · simp [fsSet, fsGet, hap]
      · simp [fsSet, fsGet, hap, ih]

theorem fsGet_fsSet_ne (fs : List (String × List Nat)) (pth q : String) (c : List Nat)
    (hq : q ≠ pth) : fsGet (fsSet fs pth c) q = fsGet fs q := by
  induction fs with
  | nil =>
      have hpq : ¬ pth = q := fun h => hq h.symm
      simp [fsSet, fsGet, hpq]
  | cons hd tl ih =>
      obtain ⟨a, b⟩ := hd
      by_cases hap : a = pth
      · subst hap
        have haq : ¬ a = q := fun h => hq h.symm
        simp [fsSet, fsGet, haq]
      · simp [fsSet, fsGet, hap, ih]

theorem fsGet_fsDel_ne (fs : List (String × List Nat)) (pth q : String)
    (hq : q ≠ pth) : fsGet (fsDel fs pth) q = fsGet fs q := by
  induction fs with
  | nil => simp [fsDel]
  | cons hd tl ih =>
      obtain ⟨a, b⟩ := hd
      by_cases hap : a = pth
      · subst hap
        have haq : ¬ a = q := fun h => hq h.symm
        simp [fsDel, fsGet, haq]
      · simp [fsDel, fsGet, hap, ih]

theorem append_bak_ne_self (fn : String) : fn ++ ".bak" ≠ fn := by
  intro h
  have h2 := congrArg String.data h
  rw [String.data_append] at h2
  have h3 := congrArg List.length h2
  rw [List.length_append] at h3
  have h4 : (".bak" : String).data.length = 4 := by decide
  omega

theorem append_tmp_ne_self (fn : String) : fn ++ ".tmp" ≠ fn := by
  intro h
  have h2 := congrArg String.data h
  rw [String.data_append] at h2
  have h3 := congrArg List.length h2
  rw [List.length_append] at h3
  have h4 : (".tmp" : String).data.length = 4 := by decide
  omega

theorem append_bak_ne_tmp (fn : String) : fn ++ ".bak" ≠ fn ++ ".tmp" := by
  intro h
  have h2 := congrArg String.data h
  rw [String.data_append, String.data_append] at h2
  have h3 := List.append_cancel_left h2
  have h4 : (".bak" : String).data ≠ (".tmp" : String).data := by decide
  exact h4 h3

/-- Injection point for a failure inside the `try` block of `_save`:
the write to the temporary file, the `os.unlink` of the target, or the
`os.rename` of the temporary onto the target; `noFail` is the unimpeded run. -/
inductive FailAt where
  | writeTmp : FailAt
  | unlinkTarget : FailAt
  | renameTmp : FailAt
  | noFail : FailAt
deriving DecidableEq

/-- The `except` handler of `_save`: `copyfile(filename + ".bak", filename)`
(reading the backup as it stands in the current filesystem). -/
def saveRestore (fs : List (String × List Nat)) (fn : String) : List (String × List Nat) :=
  match fsGet fs (fn ++ ".bak") with
  | some cb => fsSet fs fn cb
  | none => fs

/-- The disk phase of `MemoryTree._save` with a failure injected at `fail`.
Returns the resulting filesystem and whether the exception was propagated to
the caller (the handler re-raises). A step that fails leaves the filesystem
as it was before that step; all completed steps take effect. -/
def saveAttempt (fail : FailAt) (fs : List (String × List Nat)) (fn : String)
    (newBytes : List Nat) : List (String × List Nat) × Bool :=
  match fsGet fs fn with
  | none => (fs, true)
  | some c =>
    let fs1 := fsSet fs (fn ++ ".bak") c
    match fail with
    | FailAt.writeTmp => (saveRestore fs1 fn, true)
    | FailAt.unlinkTarget =>
        let fs2 := fsSet fs1 (fn ++ ".tmp") newBytes
        (saveRestore fs2 fn, true)
    | FailAt.renameTmp =>
        let fs2 := fsSet fs1 (fn ++ ".tmp") newBytes
        let fs3 := fsDel fs2 fn
        (saveRestore fs3 fn, true)
    | FailAt.noFail =>
        let fs2 := fsSet fs1 (fn ++ ".tmp") newBytes
        let fs3 := fsDel fs2 fn
        let fs4 := fsSet (fsDel fs3 (fn ++ ".tmp")) fn newBytes
        (fs4, false)

/-- Claim C1: whenever one of the write-to-temp / unlink / rename steps of a
save attempt fails, the file at the target path afterwards is byte-identical
to its content before the attempt (restored from the `.bak` copy) and the
error is propagated to the caller of the save. -/
theorem C1_atomic_restore (fail : FailAt) (fs : List (String × List Nat))
    (fn : String) (c newBytes : List Nat)
    (hfail : fail ≠ FailAt.noFail) (hc : fsGet fs fn = some c) :
    fsGet (saveAttempt fail fs fn newBytes).1 fn = some c
    ∧ (saveAttempt fail fs fn newBytes).2 = true := by
  have hbakfn : fn ++ ".bak" ≠ fn := append_bak_ne_self fn
  have htmpbak : fn ++ ".bak" ≠ fn ++ ".tmp" := append_bak_ne_tmp fn
  cases fail with
  | noFail => exact absurd rfl hfail
  | writeTmp =>
      have hbak : fsGet (fsSet fs (fn ++ ".bak") c) (fn ++ ".bak") = some c :=
        fsGet_fsSet_self fs (fn ++ ".bak") c
      simp [saveAttempt, hc, saveRestore, hbak, fsGet_fsSet_self]
  | unlinkTarget =>
      have hbak : fsGet (fsSet (fsSet fs (fn ++ ".bak") c) (fn ++ ".tmp") newBytes)
          (fn ++ ".bak") = some c := by
        rw [fsGet_fsSet_ne _ _ _ _ htmpbak]
        exact fsGet_fsSet_self fs (fn ++ ".bak") c
      simp [saveAttempt, hc, saveRestore, hbak, fsGet_fsSet_self]
  | renameTmp =>
      have hbak : fsGet (fsDel (fsSet (fsSet fs (fn ++ ".bak") c)
          (fn ++ ".tmp") newBytes) fn) (fn ++ ".bak") = some c := by
        rw [fsGet_fsDel_ne _ _ _ hbakfn, fsGet_fsSet_ne _ _ _ _ htmpbak]
        exact fsGet_fsSet_self fs (fn ++ ".bak") c
      simp [saveAttempt, hc, saveRestore, hbak, fsGet_fsSet_self]

/-- Witness for C1 at a concrete filesystem: a rename-step failure leaves the
config file with its original bytes and the error propagated. -/
theorem C1_atomic_restore_witness :
    fsGet (saveAttempt FailAt.renameTmp [("cfg.yml", [1, 2, 3])] "cfg.yml" [9]).1
        "cfg.yml" = some [1, 2, 3]
    ∧ (saveAttempt FailAt.renameTmp [("cfg.yml", [1, 2, 3])] "cfg.yml" [9]).2 = true :=
  C1_atomic_restore FailAt.renameTmp [("cfg.yml", [1, 2, 3])] "cfg.yml"
    [1, 2, 3] [9] (by decide) rfl

/-! ## Claims C6 and C7: debounced saving (`MemoryTree._save`, lines 493-527)

File-backed tree, disk phase abstracted to its effect: `_save(deadtime)`
increments `_save_counter`, then if `lastsave + deadtime < now` it writes the
current `self._data` to disk (counted by `diskWrites`) and sets
`lastsave = now`; otherwise, if the single-shot `QTimer` is not already
active, it starts it. The timer was configured in `__init__` (lines 434-438)
with the *fixed* interval `_loadsavedeadtime`, so starting it at `now` makes
it fire at `now + D`; on timeout it becomes inactive and calls `_save()`
again. A branch write mutates `self._data` and then calls `tree._save()`. -/

/-- Tree-store state for the debounce machinery. `data` stands for the
current root contents, `disk` for the bytes last written to the file. -/
structure TState where
  data : Nat
  lastsave : Nat
  timerActive : Bool
  timerFireAt : Nat
  disk : Nat
  diskWrites : Nat
  saveCounter : Nat
deriving DecidableEq

/-- `MemoryTree._save` called at time `now` with deadtime `D` (the counter
increment happens on every call, before the deadtime gate). -/
def treeSave (D : Nat) (now : Nat) (s : TState) : TState :=
  if s.lastsave + D < now then
    { s with saveCounter := s.saveCounter + 1, lastsave := now, disk := s.data,
             diskWrites := s.diskWrites + 1 }
  else if s.timerActive then
    { s with saveCounter := s.saveCounter + 1 }
  else
    { s with saveCounter := s.saveCounter + 1, timerActive := true,
             timerFireAt := now + D }

/-- A branch write at time `now`: mutate the root data, then `tree._save()`. -/
def branchWrite (D : Nat) (v : Nat) (now : Nat) (s : TState) : TState :=
  treeSave D now { s with data := v }

/-- The single-shot timer firing: it becomes inactive and the connected
`_save` slot runs at the scheduled time. -/
def timerFire (D : Nat) (s : TState) : TState :=
  treeSave D s.timerFireAt { s with timerActive := false }

theorem foldl_writes_armed (D : Nat) (ws : List (Nat × Nat)) (s : TState)
    (ht : s.timerActive = true)
    (h : ∀ p ∈ ws, p.2 ≤ s.lastsave + D) :
    List.foldl (fun st p => branchWrite D p.1 p.2 st) s ws
      = { s with data := List.foldl (fun _ p => p.1) s.data ws,
                 saveCounter := s.saveCounter + ws.length } := by
  induction ws generalizing s with
  | nil => simp
  | cons w ws ih =>
      have hw : w.2 ≤ s.lastsave + D := h w (by simp)
      have hrest : ∀ p ∈ ws, p.2 ≤ s.lastsave + D := fun p hp => h p (by simp [hp])
      have hstep : branchWrite D w.1 w.2 s
          = { s with data := w.1, saveCounter := s.saveCounter + 1 } := by
        simp [branchWrite, treeSave, Nat.not_lt.mpr hw, ht]
      rw [List.foldl_cons, hstep,
          ih { s with data := w.1, saveCounter := s.saveCounter + 1 } ht hrest]
      simp [Nat.add_assoc, Nat.add_comm]
      omega

/-- Claim C6: starting from a state whose debounce window has not elapsed and
with no deferred save scheduled, performing the writes `w :: ws` (each within
the still-open window) performs no disk write, and the deferred save that
then fires performs exactly one disk write whose content is the root state
after the last write — not a snapshot taken at schedule time. -/
theorem C6_debounce_coalescing (D : Nat) (s : TState) (w : Nat × Nat)
    (ws : List (Nat × Nat))
    (hta : s.timerActive = false)
    (hall : ∀ p ∈ w :: ws, s.lastsave < p.2 ∧ p.2 ≤ s.lastsave + D) :
    (List.foldl (fun st p => branchWrite D p.1 p.2 st) s (w :: ws)).diskWrites
        = s.diskWrites
    ∧ (timerFire D (List.foldl (fun st p => branchWrite D p.1 p.2 st) s (w :: ws))).diskWrites
        = s.diskWrites + 1
    ∧ (timerFire D (List.foldl (fun st p => branchWrite D p.1 p.2 st) s (w :: ws))).disk
        = List.foldl (fun _ p => p.1) w.1 ws := by
  have hw := hall w (by simp)
  have hrest : ∀ p ∈ ws, p.2 ≤ s.lastsave + D := fun p hp => (hall p (by simp [hp])).2
  have hstep : branchWrite D w.1 w.2 s
      = { s with data := w.1, saveCounter := s.saveCounter + 1,
                 timerActive := true, timerFireAt := w.2 + D } := by
    simp [branchWrite, treeSave, Nat.not_lt.mpr hw.2, hta]
  have hfold : List.foldl (fun st p => branchWrite D p.1 p.2 st) s (w :: ws)
      = { s with data := List.foldl (fun _ p => p.1) w.1 ws,
                 saveCounter := s.saveCounter + 1 + ws.length,
                 timerActive := true, timerFireAt := w.2 + D } := by
    rw [List.foldl_cons, hstep,
        foldl_writes_armed D ws
          { s with data := w.1, saveCounter := s.saveCounter + 1,
                   timerActive := true, timerFireAt := w.2 + D } rfl hrest]
  have hlt : s.lastsave + D < w.2 + D := Nat.add_lt_add_right hw.1 D
  rw [hfold]
  refine ⟨rfl, ?_, ?_⟩ <;> simp [timerFire, treeSave, hlt]

/-- Witness for C6 at concrete data: three writes at times 11, 12, 13 inside
the open window of a tree whose last save was at time 10 (deadtime 3); the
deferred flush performs the single disk write and carries the value of the
third write. -/
theorem C6_debounce_coalescing_witness :
    (List.foldl (fun st p => branchWrite 3 p.1 p.2 st)
        (⟨0, 10, false, 0, 99, 5, 0⟩ : TState) [(1, 11), (2, 12), (3, 13)]).diskWrites = 5
    ∧ (timerFire 3 (List.foldl (fun st p => branchWrite 3 p.1 p.2 st)
        (⟨0, 10, false, 0, 99, 5, 0⟩ : TState) [(1, 11), (2, 12), (3, 13)])).diskWrites = 6
    ∧ (timerFire 3 (List.foldl (fun st p => branchWrite 3 p.1 p.2 st)
        (⟨0, 10, false, 0, 99, 5, 0⟩ : TState) [(1, 11), (2, 12), (3, 13)])).disk = 3 := by
  have h := C6_debounce_coalescing 3 ⟨0, 10, false, 0, 99, 5, 0⟩ (1, 11)
    [(2, 12), (3, 13)] rfl (by decide)
  exact ⟨h.1, h.2.1, h.2.2⟩

/-- Counterexample to claim C7 as stated: tree with `lastsave = 0`,
deadtime 3, save call at time 2. The claim schedules the deferred save after
the remaining `(lastsave + d) - now = 1`, i.e. at absolute time 3; the code
starts the single-shot timer with its fixed interval `_loadsavedeadtime`, so
it fires at `now + D = 5`. -/
theorem C7_timer_counterexample :
    (treeSave 3 2 ⟨42, 0, false, 0, 7, 0, 0⟩).timerFireAt = 5
    ∧ (treeSave 3 2 ⟨42, 0, false, 0, 7, 0, 0⟩).timerFireAt ≠ 3 := by decide

/-- Claim C7 amended: when `now - last_save_time < d` and no deferred save is
scheduled, a single deferred save is scheduled to fire after the full fixed
interval `_loadsavedeadtime` (at `now + D`), not after the remaining
`(last_save_time + d) - now`; no disk write happens now; and the timer slot
calls `_save()` when it fires (every such call increments the counter). -/
theorem C7_timer_schedule (D now : Nat) (s : TState)
    (hw : ¬ s.lastsave + D < now) (hta : s.timerActive = false) :
    (treeSave D now s).timerActive = true
    ∧ (treeSave D now s).timerFireAt = now + D
    ∧ (treeSave D now s).diskWrites = s.diskWrites
    ∧ (treeSave D now s).saveCounter = s.saveCounter + 1
    ∧ ∀ s2 : TState, (timerFire D s2).saveCounter = s2.saveCounter + 1 := by
  refine ⟨?_, ?_, ?_, ?_, ?_⟩
  · simp [treeSave, hw, hta]
  · simp [treeSave, hw, hta]
  · simp [treeSave, hw, hta]
  · simp [treeSave, hw, hta]
  · intro s2
    unfold timerFire treeSave
    split
    · rfl
    · split <;> rfl

/-- Witness for the amended C7 at a concrete state: the deferred save is
armed and set to fire at `2 + 3`. -/
theorem C7_timer_schedule_witness :
    (treeSave 3 2 ⟨42, 0, false, 0, 7, 0, 1⟩).timerActive = true
    ∧ (treeSave 3 2 ⟨42, 0, false, 0, 7, 0, 1⟩).timerFireAt = 2 + 3 := by
  have h := C7_timer_schedule 3 2 ⟨42, 0, false, 0, 7, 0, 1⟩ (by decide) rfl
  exact ⟨h.1, h.2.1⟩

/-! ## Claim C8: shallow copy versus shared reference in `__setitem__`

Python object identity matters here, so dict-valued entries are modelled as
references into an explicit heap of addressed dicts. `__setitem__`
(lines 301-312) stores `dict(value)` — a fresh shallow copy — only when the
key is *not* yet in the branch's own data; when the key exists it goes
through `__setattr__` (lines 290-296), which stores the reference itself
(`self._data[name] = value`). -/

/-- A Python value as stored in a dict slot: a scalar, or a reference to a
dict object living in the heap. -/
inductive PyVal where
  | int : Int → PyVal
  | ref : Nat → PyVal
deriving DecidableEq

/-- Look up a key in a Python dict (ordered association list of slots). -/
def dictGet : List (String × PyVal) → String → Option PyVal
  | [], _ => none
  | (a, w) :: rest, k => if a = k then some w else dictGet rest k

/-- `d[k] = v` on a Python dict. -/
def dictSet : List (String × PyVal) → String → PyVal → List (String × PyVal)
  | [], k, v => [(k, v)]
  | (a, w) :: rest, k, v =>
      if a = k then (a, v) :: rest else (a, w) :: dictSet rest k v

/-- The heap: addressed dict objects. -/
def heapGet : List (Nat × List (String × PyVal)) → Nat → Option (List (String × PyVal))
  | [], _ => none
  | (a, d) :: rest, x => if a = x then some d else heapGet rest x

def heapSet : List (Nat × List (String × PyVal)) → Nat → List (String × PyVal) →
    List (Nat × List (String × PyVal))
  | [], x, d => [(x, d)]
  | (a, e) :: rest, x, d =>
      if a = x then (a, d) :: rest else (a, e) :: heapSet rest x d

/-- A fresh address: one past the largest address in use. -/
def freshAddr (h : List (Nat × List (String × PyVal))) : Nat :=
  (h.map Prod.fst).foldr max 0 + 1

/-- `MemoryBranch.__setitem__` on the heap: `own` is the address of the
branch's own dict. Existing key → `__setattr__` stores the given value (a
shared reference when it is a dict); new key → a dict value is stored as
`dict(value)`, a fresh shallow copy, and a scalar as itself. -/
def setitemHeap (h : List (Nat × List (String × PyVal))) (own : Nat) (k : String)
    (v : PyVal) : List (Nat × List (String × PyVal)) :=
  match heapGet h own with
  | none => h
  | some d =>
    match dictGet d k with
    | some _ => heapSet h own (dictSet d k v)
    | none =>
      match v with
      | PyVal.ref a =>
          match heapGet h a with
          | some src =>
              let na := freshAddr h
              heapSet (heapSet h na src) own (dictSet d k (PyVal.ref na))
          | none => heapSet h own (dictSet d k v)
      | PyVal.int _ => heapSet h own (dictSet d k v)

/-- In-place mutation of the dict object at address `a` (what "mutating the
original object v" does). -/
def mutateHeap (h : List (Nat × List (String × PyVal))) (a : Nat)
    (d : List (String × PyVal)) : List (Nat × List (String × PyVal)) :=
  heapSet h a d

/-- The data stored under `k` in the branch's own dict, dereferenced one
level: the contents of the dict object the slot points to. -/
def storedDict (h : List (Nat × List (String × PyVal))) (own : Nat) (k : String) :
    Option (List (String × PyVal)) :=
  match heapGet h own with
  | none => none
  | some d =>
    match dictGet d k with
    | some (PyVal.ref a) => heapGet h a
    | _ => none

/-- Counterexample to claim C8 as stated: the branch's own dict (address 0)
already has the key "k"; writing the dict object at address 1 under "k"
stores the shared reference, so mutating the original object afterwards
changes the data stored in the branch's own Submapping. -/
theorem C8_alias_counterexample :
    storedDict
        (mutateHeap
          (setitemHeap [(0, [("k", PyVal.int 0)]), (1, [("x", PyVal.int 1)])]
            0 "k" (PyVal.ref 1))
          1 [("x", PyVal.int 99)])
        0 "k" = some [("x", PyVal.int 99)]
    ∧ storedDict
        (setitemHeap [(0, [("k", PyVal.int 0)]), (1, [("x", PyVal.int 1)])]
          0 "k" (PyVal.ref 1))
        0 "k" = some [("x", PyVal.int 1)] := by decide

theorem heapGet_heapSet_self (h : List (Nat × List (String × PyVal))) (x : Nat)
    (d : List (String × PyVal)) : heapGet (heapSet h x d) x = some d := by
  induction h with
  | nil => simp [heapSet, heapGet]
  | cons hd tl ih =>
      obtain ⟨a, e⟩ := hd
      by_cases hax : a = x
      · simp [heapSet, heapGet, hax]
      · simp [heapSet, heapGet, hax, ih]

theorem heapGet_heapSet_ne (h : List (Nat × List (String × PyVal))) (x y : Nat)
    (d : List (String × PyVal)) (hy : y ≠ x) :
    heapGet (heapSet h x d) y = heapGet h y := by
  induction h with
  | nil =>
      have hxy : ¬ x = y := fun e => hy e.symm
      simp [heapSet, heapGet, hxy]
  | cons hd tl ih =>
      obtain ⟨a, e⟩ := hd
      by_cases hax : a = x
      · subst hax
        have hay : ¬ a = y := fun e => hy e.symm
        simp [heapSet, heapGet, hay]
      · simp [heapSet, heapGet, hax, ih]

theorem dictGet_dictSet_self (d : List (String × PyVal)) (k : String) (v : PyVal) :
    dictGet (dictSet d k v) k = some v := by
  induction d with
  | nil => simp [dictSet, dictGet]
  | cons hd tl ih =>
      obtain ⟨a, w⟩ := hd
      by_cases hak : a = k
      · simp [dictSet, dictGet, hak]
      · simp [dictSet, dictGet, hak, ih]

/-- Every address bound in the heap is below `freshAddr`. -/
theorem lt_freshAddr (h : List (Nat × List (String × PyVal))) (a : Nat)
    (d : List (String × PyVal)) (hd : heapGet h a = some d) : a < freshAddr h := by
  induction h with
  | nil => simp [heapGet] at hd
  | cons hd0 tl ih =>
      obtain ⟨b, e⟩ := hd0
      unfold freshAddr at ih ⊢
      by_cases hba : b = a
      · subst hba
        simp [List.map_cons, List.foldr_cons]
        omega
      · rw [heapGet, if_neg hba] at hd
        have := ih hd
        simp [List.map_cons, List.foldr_cons]
        omega

/-- Claim C8 amended: when the key is *new* in the branch's own data, a
dict-shaped value is stored as a fresh shallow copy, and mutating the
original object afterwards does not change the data stored in the branch's
own Submapping (which still holds the copied contents). When the key already
exists, the reference itself is stored and the mutation is visible. The own
dict and the written object are distinct objects (`hob`). -/
theorem C8_copy_on_new_key (h : List (Nat × List (String × PyVal))) (own a : Nat)
    (k : String) (d src mut2 : List (String × PyVal))
    (hown : heapGet h own = some d) (ha : heapGet h a = some src)
    (hob : own ≠ a) :
    (dictGet d k = none →
        storedDict (mutateHeap (setitemHeap h own k (PyVal.ref a)) a mut2) own k
          = some src
        ∧ storedDict (setitemHeap h own k (PyVal.ref a)) own k = some src)
    ∧ (∀ w, dictGet d k = some w →
        storedDict (mutateHeap (setitemHeap h own k (PyVal.ref a)) a mut2) own k
          = some mut2) := by
  constructor
  · intro hnew
    have hfa : a < freshAddr h := lt_freshAddr h a src ha
    have hfo : own < freshAddr h := lt_freshAddr h own d hown
    have hna : freshAddr h ≠ a := fun e => absurd e.symm (Nat.ne_of_lt hfa)
    have hno : freshAddr h ≠ own := fun e => absurd e.symm (Nat.ne_of_lt hfo)
    have hstep : setitemHeap h own k (PyVal.ref a)
        = heapSet (heapSet h (freshAddr h) src) own
            (dictSet d k (PyVal.ref (freshAddr h))) := by
      simp only [setitemHeap, hown, hnew, ha]
    constructor
    · rw [hstep]
      simp only [mutateHeap, storedDict, heapGet_heapSet_ne _ _ _ _ hob,
        heapGet_heapSet_self, dictGet_dictSet_self,
        heapGet_heapSet_ne _ _ _ _ hna, heapGet_heapSet_ne _ _ _ _ hno]
    · rw [hstep]
      simp only [storedDict, heapGet_heapSet_self, dictGet_dictSet_self,
        heapGet_heapSet_ne _ _ _ _ hno]
  · intro w hold
    have hstep : setitemHeap h own k (PyVal.ref a)
        = heapSet h own (dictSet d k (PyVal.ref a)) := by
      simp only [setitemHeap, hown, hold]
    rw [hstep]
    simp only [mutateHeap, storedDict, heapGet_heapSet_ne _ _ _ _ hob,
      heapGet_heapSet_self, dictGet_dictSet_self]

/-- Witness for the amended C8 at a concrete heap: writing the dict at
address 1 under the fresh key "n" of the dict at address 0, then mutating the
original, leaves the stored copy unchanged. -/
theorem C8_copy_on_new_key_witness :
    storedDict
        (mutateHeap
          (setitemHeap [(0, [("k", PyVal.int 0)]), (1, [("x", PyVal.int 1)])]
            0 "n" (PyVal.ref 1))
          1 [("x", PyVal.int 99)])
        0 "n" = some [("x", PyVal.int 1)] := by
  have h := C8_copy_on_new_key [(0, [("k", PyVal.int 0)]), (1, [("x", PyVal.int 1)])]
    0 1 "n" [("k", PyVal.int 0)] [("x", PyVal.int 1)] [("x", PyVal.int 99)]
    rfl rfl (by decide)
  exact (h.1 rfl).1

/-! ## Claim C9: the class-level `_data = OrderedDict()` default

`MemoryTree` declares `_data = OrderedDict()` at class level (line 423): a
single dict object shared by every instance that never assigns an instance
attribute `_data`. `_load` (lines 445-460) assigns `self._data` only when a
backing file exists; with `filename=None` it returns immediately (line
447-449), so every in-memory tree resolves `self._data` to the one shared
class-level dict. Attribute lookup is modelled by `Option.getD`: instance
attribute if ever assigned, else the class attribute's address. -/

/-- The single class-level `OrderedDict()` object: one fixed heap address. -/
def classDataAddr : Nat := 0

/-- A `MemoryTree` instance seen through its `_data` attribute: `instData`
is the address assigned by `_load` (from a backing file), or `none` if
`_load` never ran its body (in-memory mode, `filename=None`). -/
structure PyTreeObj where
  instData : Option Nat

/-- Python attribute lookup for `self._data`: instance attribute first,
falling back to the class attribute. -/
def treeDataAddr (t : PyTreeObj) : Nat := t.instData.getD classDataAddr

/-- Constructing `MemoryTree(filename=None)`: `_load` returns without
assigning `self._data`, so no instance attribute is created. -/
def mkTreeInMemory : PyTreeObj := ⟨none⟩

/-- The root mapping of a tree instance: the dict object its `_data`
resolves to. -/
def treeRoot (h : List (Nat × List (String × PyVal))) (t : PyTreeObj) :
    Option (List (String × PyVal)) :=
  heapGet h (treeDataAddr t)

/-- A write through a tree (branch `__setattr__` on the root): mutate the
dict object that `self._data` resolves to. -/
def treeWrite (h : List (Nat × List (String × PyVal))) (t : PyTreeObj)
    (k : String) (v : PyVal) : List (Nat × List (String × PyVal)) :=
  match heapGet h (treeDataAddr t) with
  | some d => heapSet h (treeDataAddr t) (dictSet d k v)
  | none => h

/-- Claim C9 is the spec's intent and the code violates it (the spec itself
flags the shared class-level default as a latent bug): with two in-memory
trees `MemoryTree(filename=None)` over a heap whose class-level dict is
empty, a write through the first tree changes the root mapping observed by
the second tree, because both resolve `_data` to the same shared class-level
`OrderedDict`. -/
theorem C9_shared_class_data_bug :
    treeDataAddr mkTreeInMemory = classDataAddr
    ∧ treeRoot [(classDataAddr, [])] mkTreeInMemory = some []
    ∧ treeRoot (treeWrite [(classDataAddr, [])] mkTreeInMemory "k" (PyVal.int 5))
        mkTreeInMemory = some [("k", PyVal.int 5)] := by decide

/-! ## Claim C10: in-memory mode and `_save_now`

With `filename=None`, `__init__` (lines 425-443) takes the in-memory branch:
it never creates `self._savetimer` (created only in the `else`, line 435).
`_save` (lines 493-499) increments the counter and returns as soon as it
sees `self._filename is None`, before touching the timer or the disk;
`_reload` (lines 472-476) returns immediately too. `_save_now`
(lines 530-538) starts with `if self._savetimer.isActive()`, and the missing
attribute makes that raise `AttributeError`. -/

inductive PyErr where
  | attributeError : PyErr
deriving DecidableEq

/-- A `MemoryTree` for the in-memory/no-op claims: `savetimer = none` means
the attribute was never created; `some b` is a created timer with active
flag `b`. -/
structure MTree where
  filename : Option String
  savetimer : Option Bool
  saveCounter : Nat
  diskWrites : Nat
deriving DecidableEq

/-- `MemoryTree.__init__`: with a filename the save timer is created
(inactive); with `filename=None` it never is. -/
def mkMTree (filename : Option String) : MTree :=
  match filename with
  | none => { filename := none, savetimer := none, saveCounter := 0, diskWrites := 0 }
  | some f => { filename := some f, savetimer := some false, saveCounter := 0,
                diskWrites := 0 }

/-- `MemoryTree._save` as far as the in-memory mode exercises it: the counter
increments, then `self._filename is None` returns before any disk or timer
interaction (the file-backed disk path is modelled by `treeSave` above). -/
def mtreeSave (t : MTree) : Except PyErr MTree :=
  let t1 := { t with saveCounter := t.saveCounter + 1 }
  match t1.filename with
  | none => Except.ok t1
  | some _ => Except.ok t1

/-- `MemoryTree._reload`: returns immediately when `self._filename is None`.
(The stale-check path for file-backed trees is not needed here.) -/
def mtreeReload (t : MTree) : Except PyErr MTree :=
  match t.filename with
  | none => Except.ok t
  | some _ => Except.ok t

/-- `MemoryTree._save_now`: its first statement reads `self._savetimer`;
when the attribute was never created this raises `AttributeError`. With a
created timer it stops it, forces a save, and stops it again. -/
def mtreeSaveNow (t : MTree) : Except PyErr MTree :=
  match t.savetimer with
  | none => Except.error PyErr.attributeError
  | some _ =>
      match mtreeSave { t with savetimer := some false } with
      | Except.ok t1 => Except.ok { t1 with savetimer := some false }
      | Except.error e => Except.error e

/-- Claim C10: on a tree constructed with no filename (in-memory mode),
`save()` and `reload()` return without error and touch neither timer, disk,
nor file state (only the diagnostic counter moves), while `save_now()`
raises `AttributeError` because the deferred-save timer attribute was never
created. -/
theorem C10_inmemory_save_now :
    mtreeSave (mkMTree none)
      = Except.ok { filename := none, savetimer := none, saveCounter := 1,
                    diskWrites := 0 }
    ∧ mtreeReload (mkMTree none) = Except.ok (mkMTree none)
    ∧ mtreeSaveNow (mkMTree none) = Except.error PyErr.attributeError :=
  ⟨rfl, rfl, rfl⟩

end PyrplMemory
